import Mathlib

/-!
Shallow embedding of the TSBootcamp teaching examples that the claims
are about, together with theorems settling the claims.

JavaScript numbers are modelled as `Int` (every comparison and
arithmetic operation the embedded code performs is exact on the inputs
the claims quantify over), JavaScript strings as `String`, thrown
`Error` values as `Except String`, and the mutable fields of a class
instance as an explicit state value threaded through the methods.
-/

namespace TSBootcamp

/-! ## Module 1 (`src/module-01-javascript`, functions file): `add` -/

/-- `function add(a, b) { return a + b; }` -/
def add (a b : Int) : Int := a + b

/-! ## Module 4 (`src/module-04-classes/01-classes-basics.ts`):
`BankAccount` and `MathUtils` -/

/-- The fields of a `BankAccount` instance.  `balance` is private,
`accountNumber` protected, `owner` public; access modifiers have no
semantic content in the embedding. -/
structure BankAccount where
  balance : Int
  accountNumber : String
  owner : String
deriving Repr, DecidableEq

/-- `deposit(amount) { if (amount > 0) { this.balance += amount; } }` —
returns the updated instance state (the method returns `void`). -/
def BankAccount.deposit (acc : BankAccount) (amount : Int) : BankAccount :=
  if amount > 0 then { acc with balance := acc.balance + amount } else acc

/-- `withdraw(amount)`: if `amount > 0 && amount <= this.balance` the
balance is decremented and `true` is returned, otherwise `false`.
A method that may `throw` is embedded as returning the thrown-or-
returned value (`Except String _`) together with the instance state
after the call; `withdraw`'s body contains no `throw`, so every branch
yields `Except.ok`. -/
def BankAccount.withdraw (acc : BankAccount) (amount : Int) :
    Except String Bool × BankAccount :=
  if amount > 0 ∧ amount ≤ acc.balance then
    (Except.ok true, { acc with balance := acc.balance - amount })
  else
    (Except.ok false, acc)

/-- `getBalance() { return this.balance; }` -/
def BankAccount.getBalance (acc : BankAccount) : Int := acc.balance

namespace MathUtils

/-- `static add(a, b) { return a + b; }` -/
def add (a b : Int) : Int := a + b

/-- `static multiply(a, b) { return a * b; }` -/
def multiply (a b : Int) : Int := a * b

end MathUtils

/-- `s.includes('@')` — `String.prototype.includes` applied to a
single-character needle holds exactly when some character of the
string is that character. -/
def jsIncludesChar (s : String) (c : Char) : Bool :=
  s.data.any (fun a => a == c)

/-! ## Module 6 (`src/module-06-patterns/05-repository.ts`):
`InMemoryUserRepository` and `UserService` -/

/-- The `User` entity: `{ id: number; name: string; email: string }`. -/
structure User where
  id : Int
  name : String
  email : String
deriving Repr, DecidableEq

/-- `Omit<User, 'id'>`: the argument of `create`. -/
structure NewUser where
  name : String
  email : String
deriving Repr, DecidableEq

/-- `Partial<User>`: the argument of `update`; a field that is `none`
is absent from the object literal. -/
structure UserUpdates where
  id : Option Int
  name : Option String
  email : Option String
deriving Repr, DecidableEq

/-- `{ ...u, ...upd }`: the spread merge performed by `update` — a
field present in `upd` overrides the corresponding field of `u`. -/
def User.merge (u : User) (upd : UserUpdates) : User :=
  { id := upd.id.getD u.id
    name := upd.name.getD u.name
    email := upd.email.getD u.email }

/-- The private mutable state of an `InMemoryUserRepository` instance:
`private users: User[] = []` and `private nextId = 1`. -/
structure RepoState where
  users : List User
  nextId : Int
deriving Repr, DecidableEq

/-- The state of a freshly constructed `InMemoryUserRepository`. -/
def RepoState.init : RepoState := { users := [], nextId := 1 }

/-- `findById(id)`: `this.users.find((u) => u.id === id) || null`.
The state is not modified. -/
def RepoState.findById (s : RepoState) (id : Int) : Option User :=
  s.users.find? (fun u => u.id == id)

/-- `findAll()`: returns `[...this.users]` (a copy of the list). The
state is not modified. -/
def RepoState.findAll (s : RepoState) : List User :=
  s.users

/-- `create(user)`: builds `{ id: this.nextId++, ...user }`, pushes it
onto `this.users`, and returns it. -/
def RepoState.create (s : RepoState) (user : NewUser) : User × RepoState :=
  let newUser : User := { id := s.nextId, name := user.name, email := user.email }
  (newUser, { users := s.users ++ [newUser], nextId := s.nextId + 1 })

/-- `update(id, updates)`: `findIndex` on `u.id === id`; if `-1`,
`throw new Error(...)`; otherwise overwrite `this.users[index]` with
`{ ...this.users[index], ...updates }` and return it.  `find?` is
`none` exactly when `findIndex` is `-1`, and when a match exists,
`findIdx` is that index and `find?` is the element at it. -/
def RepoState.update (s : RepoState) (id : Int) (updates : UserUpdates) :
    Except String User × RepoState :=
  match s.users.find? (fun u => u.id == id) with
  | none => (Except.error ("User with id " ++ toString id ++ " not found"), s)
  | some old =>
    let index := s.users.findIdx (fun u => u.id == id)
    let merged := old.merge updates
    (Except.ok merged, { s with users := s.users.set index merged })

/-- `delete(id)`: `findIndex` on `u.id === id`; if `-1`, return
`false`; otherwise `this.users.splice(index, 1)` (remove the single
element at that index) and return `true`. -/
def RepoState.delete (s : RepoState) (id : Int) : Bool × RepoState :=
  match s.users.find? (fun u => u.id == id) with
  | none => (false, s)
  | some _ =>
    let index := s.users.findIdx (fun u => u.id == id)
    (true, { s with users := s.users.eraseIdx index })

/-- The invariant of claim C3 over a repository state: the ids of the
stored users are pairwise distinct and each is strictly below
`nextId`. -/
def RepoInv (s : RepoState) : Prop :=
  (s.users.map User.id).Pairwise (· ≠ ·) ∧ ∀ u ∈ s.users, u.id < s.nextId

instance (s : RepoState) : Decidable (RepoInv s) := by
  unfold RepoInv; infer_instance

/-- The `UserRepository` interface operations that the `UserService`
business methods under scrutiny call, over an abstract state type `σ`
(the interface is implemented by both the in-memory and the simulated
database repository). -/
structure UserRepositoryOps (σ : Type) where
  create : σ → NewUser → User × σ
  update : σ → Int → UserUpdates → Except String User × σ

/-- The `InMemoryUserRepository` implementation of the interface. -/
def inMemoryRepo : UserRepositoryOps RepoState :=
  { create := RepoState.create, update := RepoState.update }

namespace UserService

/-- `createUser(name, email)`: if `!email.includes('@')` then
`throw new Error('Invalid email address')`, else return
`this.repository.create({ name, email })`. -/
def createUser {σ : Type} (repo : UserRepositoryOps σ) (s : σ)
    (name email : String) : Except String User × σ :=
  if ¬ jsIncludesChar email '@' then
    (Except.error "Invalid email address", s)
  else
    let r := repo.create s { name := name, email := email }
    (Except.ok r.1, r.2)

/-- `updateUserEmail(id, email)`: if `!email.includes('@')` then
`throw new Error('Invalid email address')`, else return
`this.repository.update(id, { email })`. -/
def updateUserEmail {σ : Type} (repo : UserRepositoryOps σ) (s : σ)
    (id : Int) (email : String) : Except String User × σ :=
  if ¬ jsIncludesChar email '@' then
    (Except.error "Invalid email address", s)
  else
    repo.update s id { id := none, name := none, email := some email }

end UserService

/-! ## Module 6 (`src/module-06-patterns/01-singleton.ts`):
`DatabaseConnection` -/

/-- A `DatabaseConnection` instance; its only field is the private
`connectionString`. -/
structure DatabaseConnection where
  connectionString : String
deriving Repr, DecidableEq

/-- The static field `private static instance: DatabaseConnection |
null`, the only mutable state of the singleton. -/
abbrev SingletonState := Option DatabaseConnection

/-- `static getInstance(connectionString?: string)`: when the stored
instance is `null`, `if (!connectionString) throw ...` — the guard is
a JavaScript falsiness test, true both for an absent argument and for
the empty string — else store and return a fresh instance; when an
instance is stored, return it.  Returns the result together with the
new static state. -/
def DatabaseConnection.getInstance (connectionString : Option String)
    (st : SingletonState) : Except String DatabaseConnection × SingletonState :=
  match st with
  | none =>
    match connectionString with
    | none => (Except.error "Connection string required for first initialization", none)
    | some cs =>
      if cs = "" then
        (Except.error "Connection string required for first initialization", none)
      else
        let inst : DatabaseConnection := { connectionString := cs }
        (Except.ok inst, some inst)
  | some inst => (Except.ok inst, some inst)

/-- `close()`: sets `DatabaseConnection.instance = null`. -/
def DatabaseConnection.close (_st : SingletonState) : SingletonState :=
  none

/-! ## Module 11 (`src/module-11-backend/02-validation.ts`):
`validateUserInput` -/

/-- Runtime JavaScript values, as far as the validation code
distinguishes them: `null`, `undefined`, booleans, numbers, strings,
and plain objects (a list of named fields, first binding wins). -/
inductive JSValue where
  | vNull
  | vUndefined
  | vBool (b : Bool)
  | vNum (n : Int)
  | vStr (s : String)
  | vObj (fields : List (String × JSValue))
deriving Repr

/-- JavaScript `typeof`; note `typeof null === 'object'`. -/
def jsTypeof : JSValue → String
  | .vNull => "object"
  | .vUndefined => "undefined"
  | .vBool _ => "boolean"
  | .vNum _ => "number"
  | .vStr _ => "string"
  | .vObj _ => "object"

/-- `input === null`. -/
def JSValue.isNull : JSValue → Bool
  | .vNull => true
  | _ => false

/-- Property access `obj.k`: the value bound to `k` in an object, and
`undefined` when the property is absent or the value is not an
object. -/
def JSValue.getField : JSValue → String → JSValue
  | .vObj fields, k =>
    match fields.find? (fun p => p.1 == k) with
    | some p => p.2
    | none => .vUndefined
  | _, _ => .vUndefined

/-- `validateUserInput(input)`: reject unless `typeof input ===
'object'` and `input !== null`; then require `typeof obj.name ===
'string' && obj.name.length > 0`, `typeof obj.email === 'string' &&
obj.email.includes('@')`, and `typeof obj.age === 'number' && obj.age
> 0 && obj.age < 150`.  Each `typeof`-guarded pair of conjuncts is a
match on the field's constructor. -/
def validateUserInput (input : JSValue) : Bool :=
  if jsTypeof input != "object" || input.isNull then
    false
  else
    (match input.getField "name" with
     | JSValue.vStr s => decide (s.length > 0)
     | _ => false) &&
    (match input.getField "email" with
     | JSValue.vStr s => jsIncludesChar s '@'
     | _ => false) &&
    (match input.getField "age" with
     | JSValue.vNum n => decide (0 < n) && decide (n < 150)
     | _ => false)

/-- The property claimed of `validateUserInput`, written exactly as
the claim states it: the input is a non-null object whose `name` field
is a non-empty string, whose `email` field is a string containing
`'@'`, and whose `age` field is a number strictly between 0 and
150. -/
def ValidUserInput (input : JSValue) : Prop :=
  (∃ fields, input = JSValue.vObj fields) ∧
  (∃ s, input.getField "name" = JSValue.vStr s ∧ s.length > 0) ∧
  (∃ s, input.getField "email" = JSValue.vStr s ∧ jsIncludesChar s '@') ∧
  (∃ n, input.getField "age" = JSValue.vNum n ∧ 0 < n ∧ n < 150)

/-! ## Helper lemmas: first matches in lists -/

theorem find?_append_first {α : Type} (p : α → Bool) (l1 l2 : List α) (u : α)
    (h1 : ∀ v ∈ l1, p v = false) (hu : p u = true) :
    (l1 ++ u :: l2).find? p = some u := by
  induction l1 with
  | nil => simpa using List.find?_cons_of_pos _ hu
  | cons a l ih =>
    rw [List.cons_append, List.find?_cons_of_neg]
    · exact ih fun v hv => h1 v (List.mem_cons_of_mem a hv)
    · simp [h1 a (List.mem_cons_self a l)]

theorem findIdx_append_first {α : Type} (p : α → Bool) (l1 l2 : List α) (u : α)
    (h1 : ∀ v ∈ l1, p v = false) (hu : p u = true) :
    (l1 ++ u :: l2).findIdx p = l1.length := by
  induction l1 with
  | nil => simp [List.findIdx_cons, hu]
  | cons a l ih =>
    rw [List.cons_append, List.findIdx_cons, h1 a (List.mem_cons_self a l)]
    simp [ih fun v hv => h1 v (List.mem_cons_of_mem a hv)]

theorem set_append_length {α : Type} (l1 l2 : List α) (u x : α) :
    (l1 ++ u :: l2).set l1.length x = l1 ++ x :: l2 := by
  induction l1 with
  | nil => rfl
  | cons a l ih =>
    show a :: ((l ++ u :: l2).set l.length x) = a :: (l ++ x :: l2)
    rw [ih]

theorem eraseIdx_append_length {α : Type} (l1 l2 : List α) (u : α) :
    (l1 ++ u :: l2).eraseIdx l1.length = l1 ++ l2 := by
  induction l1 with
  | nil => rfl
  | cons a l ih =>
    show a :: ((l ++ u :: l2).eraseIdx l.length) = a :: (l ++ l2)
    rw [ih]

theorem exists_split_of_find?_eq_some {α : Type} {p : α → Bool} {l : List α} {u : α}
    (h : l.find? p = some u) :
    ∃ l1 l2, l = l1 ++ u :: l2 ∧ (∀ v ∈ l1, p v = false) ∧ p u = true := by
  induction l with
  | nil => simp [List.find?] at h
  | cons a as ih =>
    by_cases ha : p a = true
    · rw [List.find?_cons_of_pos _ ha] at h
      obtain rfl : a = u := by injection h
      exact ⟨[], as, rfl, by simp, ha⟩
    · rw [List.find?_cons_of_neg _ ha] at h
      obtain ⟨l1, l2, rfl, h1, hu⟩ := ih h
      refine ⟨a :: l1, l2, rfl, ?_, hu⟩
      intro v hv
      rcases List.mem_cons.mp hv with rfl | hv'
      · exact Bool.eq_false_iff.mpr ha
      · exact h1 v hv'

/-- The `InMemoryUserRepository.update` method never throws the
service-layer message: its only error is `'User with id <id> not
found'`, which is longer than `'Invalid email address'`. -/
theorem inMemory_update_no_email_error (s : RepoState) (id : Int) (upd : UserUpdates) :
    (s.update id upd).1 ≠ Except.error "Invalid email address" := by
  cases hf : s.users.find? (fun u => u.id == id) with
  | none =>
    simp only [RepoState.update, hf]
    intro h
    have h2 : "User with id " ++ toString id ++ " not found" = "Invalid email address" := by
      injection h
    have h3 := congrArg String.length h2
    rw [String.length_append, String.length_append] at h3
    have l1 : "User with id ".length = 13 := rfl
    have l2 : " not found".length = 10 := rfl
    have l3 : "Invalid email address".length = 21 := rfl
    rw [l1, l2, l3] at h3
    omega
  | some old =>
    simp [RepoState.update, hf]

/-! ## Claims about `BankAccount` and `add` -/

/-- C9: `add(2, 3)` returns `5`, both for the exported function `add`
and for the static method `MathUtils.add`. -/
theorem c9_add_two_three : add 2 3 = 5 ∧ MathUtils.add 2 3 = 5 :=
  ⟨rfl, rfl⟩

/-- C4: for every `BankAccount` state and every amount strictly
greater than the current balance, `withdraw(amount)` returns `false`
(and, as the embedding makes explicit, leaves the state unchanged). -/
theorem c4_withdraw_over_balance (acc : BankAccount) (amount : Int)
    (h : acc.balance < amount) :
    acc.withdraw amount = (Except.ok false, acc) := by
  have hc : ¬(amount > 0 ∧ amount ≤ acc.balance) := by omega
  simp [BankAccount.withdraw, hc]

/-- Witness for C4: withdrawing 10 from a balance of 5 returns
`false`. -/
theorem c4_withdraw_over_balance_witness :
    BankAccount.withdraw ⟨5, "ACC-1", "alice"⟩ 10 = (Except.ok false, ⟨5, "ACC-1", "alice"⟩) :=
  c4_withdraw_over_balance ⟨5, "ACC-1", "alice"⟩ 10 (by decide)

/-- C5 counterexample: the claim says a negative `withdraw` amount
makes the method throw.  At the concrete account with balance 100 and
amount `-5 < 0`, `withdraw` does not throw: it returns normally
(`Except.ok`, not `Except.error`) with `false` and leaves the account
unchanged. -/
theorem c5_counterexample :
    BankAccount.withdraw ⟨100, "ACC-1", "alice"⟩ (-5) =
      (Except.ok false, ⟨100, "ACC-1", "alice"⟩) := rfl

/-- C5 amended: for every `BankAccount` state and every negative
amount, `withdraw(amount)` does not throw; it returns `false` and
leaves the account unchanged. -/
theorem c5_amended_withdraw_negative (acc : BankAccount) (amount : Int)
    (h : amount < 0) :
    acc.withdraw amount = (Except.ok false, acc) := by
  have hc : ¬(amount > 0 ∧ amount ≤ acc.balance) := by omega
  simp [BankAccount.withdraw, hc]

/-- Witness for the amended C5: withdrawing −5 returns `false` and
changes nothing. -/
theorem c5_amended_witness :
    BankAccount.withdraw ⟨100, "ACC-2", "bob"⟩ (-5) = (Except.ok false, ⟨100, "ACC-2", "bob"⟩) :=
  c5_amended_withdraw_negative ⟨100, "ACC-2", "bob"⟩ (-5) (by decide)

/-- C10: whenever `withdraw` returns `false` the whole account state —
balance, owner and account number — is unchanged, and `deposit` with a
non-positive amount leaves the whole account state unchanged. -/
theorem c10_frame (acc : BankAccount) (amount : Int) :
    ((acc.withdraw amount).1 = Except.ok false → (acc.withdraw amount).2 = acc) ∧
    (amount ≤ 0 → acc.deposit amount = acc) := by
  constructor
  · intro h
    by_cases hc : amount > 0 ∧ amount ≤ acc.balance
    · simp [BankAccount.withdraw, hc] at h
    · simp [BankAccount.withdraw, hc]
  · intro h
    have hc : ¬ amount > 0 := by omega
    simp [BankAccount.deposit, hc]

/-- Witness for C10: a failing withdrawal of 9 from balance 7 and a
deposit of −3 each leave the account untouched. -/
theorem c10_frame_witness :
    (BankAccount.withdraw ⟨7, "A", "carol"⟩ 9).2 = ⟨7, "A", "carol"⟩ ∧
    BankAccount.deposit ⟨7, "A", "carol"⟩ (-3) = ⟨7, "A", "carol"⟩ :=
  ⟨(c10_frame ⟨7, "A", "carol"⟩ 9).1 rfl, (c10_frame ⟨7, "A", "carol"⟩ (-3)).2 (by decide)⟩

/-! ## Claims about `InMemoryUserRepository` -/

/-- C2: for an absent id, `update` throws `'User with id <id> not
found'` and `delete` returns `false`, both leaving the stored list
unchanged; for a present id, `update` overwrites the first user
carrying the id with the spread-merge of the updates into it and
returns the merged user, and `delete` returns `true` and removes
exactly that one user. -/
theorem c2_update_delete (s : RepoState) (id : Int) (upd : UserUpdates) :
    ((∀ u ∈ s.users, u.id ≠ id) →
      s.update id upd = (Except.error ("User with id " ++ toString id ++ " not found"), s) ∧
      s.delete id = (false, s)) ∧
    (∀ (l1 : List User) (u : User) (l2 : List User),
      s.users = l1 ++ u :: l2 → (∀ v ∈ l1, v.id ≠ id) → u.id = id →
      s.update id upd = (Except.ok (u.merge upd), { s with users := l1 ++ u.merge upd :: l2 }) ∧
      s.delete id = (true, { s with users := l1 ++ l2 })) := by
  constructor
  · intro hmiss
    have hf : s.users.find? (fun u => u.id == id) = none := by
      rw [List.find?_eq_none]
      intro x hx
      simp [hmiss x hx]
    constructor
    · simp [RepoState.update, hf]
    · simp [RepoState.delete, hf]
  · intro l1 u l2 hsplit hl1 hu
    have hl1' : ∀ v ∈ l1, (fun w : User => w.id == id) v = false := by
      intro v hv; simp [hl1 v hv]
    have hu' : (fun w : User => w.id == id) u = true := by simp [hu]
    have hf : s.users.find? (fun w => w.id == id) = some u := by
      rw [hsplit]; exact find?_append_first _ l1 l2 u hl1' hu'
    have hidx : s.users.findIdx (fun w => w.id == id) = l1.length := by
      rw [hsplit]; exact findIdx_append_first _ l1 l2 u hl1' hu'
    constructor
    · simp only [RepoState.update, hf, hidx]
      rw [hsplit, set_append_length]
    · simp only [RepoState.delete, hf, hidx]
      rw [hsplit, eraseIdx_append_length]

/-- Witness for C2: in a two-user repository, updating the email of
the user with id 2 merges the new email into that user, and deleting
the absent id 5 returns `false` and changes nothing. -/
theorem c2_witness :
    (RepoState.mk [⟨1, "a", "a@x"⟩, ⟨2, "b", "b@x"⟩] 3).update 2 ⟨none, none, some "new@x"⟩ =
      (Except.ok (User.merge ⟨2, "b", "b@x"⟩ ⟨none, none, some "new@x"⟩),
        ⟨[⟨1, "a", "a@x"⟩, User.merge ⟨2, "b", "b@x"⟩ ⟨none, none, some "new@x"⟩], 3⟩) ∧
    (RepoState.mk [⟨1, "a", "a@x"⟩, ⟨2, "b", "b@x"⟩] 3).delete 5 =
      (false, RepoState.mk [⟨1, "a", "a@x"⟩, ⟨2, "b", "b@x"⟩] 3) :=
  ⟨((c2_update_delete ⟨[⟨1, "a", "a@x"⟩, ⟨2, "b", "b@x"⟩], 3⟩ 2 ⟨none, none, some "new@x"⟩).2
      [⟨1, "a", "a@x"⟩] ⟨2, "b", "b@x"⟩ [] rfl (by decide) rfl).1,
   ((c2_update_delete ⟨[⟨1, "a", "a@x"⟩, ⟨2, "b", "b@x"⟩], 3⟩ 5 ⟨none, none, some "new@x"⟩).1
      (by decide)).2⟩

/-- C3 counterexample: `update` does not preserve the distinct-ids
invariant, because a `Partial<User>` may overwrite the `id` field.
The concrete state with users 1 and 2 and `nextId = 3` satisfies the
invariant, yet `update(1, { id: 2 })` succeeds and leaves two stored
users with id 2. -/
theorem c3_counterexample :
    RepoInv ⟨[⟨1, "a", "a@x"⟩, ⟨2, "b", "b@x"⟩], 3⟩ ∧
    (RepoState.mk [⟨1, "a", "a@x"⟩, ⟨2, "b", "b@x"⟩] 3).update 1 ⟨some 2, none, none⟩ =
      (Except.ok ⟨2, "a", "a@x"⟩, ⟨[⟨2, "a", "a@x"⟩, ⟨2, "b", "b@x"⟩], 3⟩) ∧
    ¬ RepoInv ⟨[⟨2, "a", "a@x"⟩, ⟨2, "b", "b@x"⟩], 3⟩ :=
  ⟨by decide, rfl, by decide⟩

/-- C3 amended: every operation of `InMemoryUserRepository` preserves
the invariant that stored ids are pairwise distinct and strictly below
`nextId` — for `update`, provided the updates object does not carry an
`id` field (as in every call the service layer makes); `findById` and
`findAll` do not change the state at all.  Consequently, in every
state satisfying the invariant, `create` returns a user whose id
differs from the id of every user stored before the call. -/
theorem c3_amended (s : RepoState) (hInv : RepoInv s) :
    (∀ user : NewUser,
      RepoInv (s.create user).2 ∧ ∀ u ∈ s.users, (s.create user).1.id ≠ u.id) ∧
    (∀ (id : Int) (upd : UserUpdates), upd.id = none → RepoInv (s.update id upd).2) ∧
    (∀ id : Int, RepoInv (s.delete id).2) := by
  obtain ⟨hpw, hbound⟩ := hInv
  refine ⟨fun user => ⟨⟨?_, ?_⟩, ?_⟩, ?_, ?_⟩
  · -- create preserves pairwise distinctness
    simp only [RepoState.create, List.map_append, List.map_cons, List.map_nil]
    rw [List.pairwise_append]
    refine ⟨hpw, by simp, ?_⟩
    intro a ha b hb
    simp only [List.map_cons, List.map_nil, List.mem_cons, List.not_mem_nil, or_false] at hb
    obtain ⟨u, hu, rfl⟩ := List.mem_map.mp ha
    have := hbound u hu
    omega
  · -- create keeps every id below the new nextId
    intro u hu
    simp only [RepoState.create] at hu ⊢
    rcases List.mem_append.mp hu with h1 | h2
    · have := hbound u h1; omega
    · simp only [List.mem_cons, List.not_mem_nil, or_false] at h2
      subst h2; simp
  · -- create returns a fresh id
    intro u hu
    have := hbound u hu
    simp only [RepoState.create]
    omega
  · -- update with no id field preserves the invariant
    intro id upd hid
    cases hf : s.users.find? (fun w => w.id == id) with
    | none =>
      simp only [RepoState.update, hf]
      exact ⟨hpw, hbound⟩
    | some old =>
      obtain ⟨l1, l2, hsplit, hl1, hold⟩ := exists_split_of_find?_eq_some hf
      have hidx : s.users.findIdx (fun w => w.id == id) = l1.length := by
        rw [hsplit]; exact findIdx_append_first _ l1 l2 old hl1 hold
      have hmid : (old.merge upd).id = old.id := by simp [User.merge, hid]
      simp only [RepoState.update, hf, hidx]
      rw [RepoInv]
      rw [hsplit, set_append_length]
      constructor
      · have hmap : (l1 ++ old.merge upd :: l2).map User.id = (l1 ++ old :: l2).map User.id := by
          simp [List.map_append, hmid]
        rw [hmap, ← hsplit]
        exact hpw
      · intro u hu
        rcases List.mem_append.mp hu with h1 | h2
        · exact hbound u (hsplit ▸ List.mem_append_left _ h1)
        · rcases List.mem_cons.mp h2 with rfl | h3
          · have hb := hbound old (hsplit ▸ List.mem_append_right _ (List.mem_cons_self _ _))
            simpa [hmid] using hb
          · exact hbound u (hsplit ▸ List.mem_append_right _ (List.mem_cons_of_mem _ h3))
  · -- delete preserves the invariant
    intro id
    cases hf : s.users.find? (fun w => w.id == id) with
    | none =>
      simp only [RepoState.delete, hf]
      exact ⟨hpw, hbound⟩
    | some old =>
      obtain ⟨l1, l2, hsplit, hl1, hold⟩ := exists_split_of_find?_eq_some hf
      have hidx : s.users.findIdx (fun w => w.id == id) = l1.length := by
        rw [hsplit]; exact findIdx_append_first _ l1 l2 old hl1 hold
      simp only [RepoState.delete, hf, hidx]
      rw [RepoInv]
      rw [hsplit, eraseIdx_append_length]
      have hsub : (l1 ++ l2).Sublist (l1 ++ old :: l2) :=
        List.Sublist.append_left (List.sublist_cons_self old l2) l1
      constructor
      · refine List.Pairwise.sublist (List.Sublist.map User.id hsub) ?_
        rw [← hsplit]; exact hpw
      · intro u hu
        exact hbound u (hsplit ▸ hsub.subset hu)

/-- Witness for the amended C3: creating a user in a one-user
repository that satisfies the invariant yields a state that satisfies
it again. -/
theorem c3_amended_witness :
    RepoInv ((RepoState.mk [⟨1, "a", "a@x"⟩] 2).create ⟨"Bob", "b@x"⟩).2 :=
  (((c3_amended ⟨[⟨1, "a", "a@x"⟩], 2⟩ (by decide)).1 ⟨"Bob", "b@x"⟩).1)

/-! ## Claims about `UserService` -/

/-- C1: for every name and email, each of `createUser(name, email)`
and `updateUserEmail(id, email)` throws `'Invalid email address'` if
and only if the email does not contain `'@'`; with a valid email,
`createUser` returns exactly the result of the repository's
`create({name, email})` and `updateUserEmail` returns exactly the
result of the repository's `update(id, {email})`.  The hypothesis
states that the underlying repository's `update` never itself throws
the service's message; `inMemory_update_no_email_error` discharges it
for the in-memory repository. -/
theorem c1_service_email_validation {σ : Type} (repo : UserRepositoryOps σ) (s : σ)
    (name email : String) (id : Int)
    (hrepo : ∀ (s' : σ) (id' : Int) (upd : UserUpdates),
      (repo.update s' id' upd).1 ≠ Except.error "Invalid email address") :
    ((UserService.createUser repo s name email).1 = Except.error "Invalid email address"
        ↔ ¬ jsIncludesChar email '@') ∧
    ((UserService.updateUserEmail repo s id email).1 = Except.error "Invalid email address"
        ↔ ¬ jsIncludesChar email '@') ∧
    (jsIncludesChar email '@' →
      UserService.createUser repo s name email =
        (Except.ok (repo.create s { name := name, email := email }).1,
          (repo.create s { name := name, email := email }).2) ∧
      UserService.updateUserEmail repo s id email =
        repo.update s id { id := none, name := none, email := some email }) := by
  by_cases hv : jsIncludesChar email '@'
  · refine ⟨?_, ?_, fun _ => ⟨?_, ?_⟩⟩
    · simp [UserService.createUser, hv]
    · simp [UserService.updateUserEmail, hv,
        hrepo s id { id := none, name := none, email := some email }]
    · simp [UserService.createUser, hv]
    · simp [UserService.updateUserEmail, hv]
  · simp [UserService.createUser, UserService.updateUserEmail, hv]

/-- Witness for C1: with the in-memory repository and an email without
`'@'`, `createUser` throws `'Invalid email address'`. -/
theorem c1_witness :
    (UserService.createUser inMemoryRepo RepoState.init "Alice" "aliceexample.com").1 =
      Except.error "Invalid email address" :=
  (c1_service_email_validation inMemoryRepo RepoState.init "Alice" "aliceexample.com" 1
      (fun s' id' upd => inMemory_update_no_email_error s' id' upd)).1.mpr (by decide)

/-- C6 counterexample: the claim that the repository satisfies no
round-trip and no idempotence property is false.  Concretely, reading
back the id of a user just created in a fresh repository returns
exactly that user, and deleting id 1 twice from a one-user repository
leaves the same state as deleting it once. -/
theorem c6_counterexample :
    (RepoState.init.create ⟨"Alice", "alice@example.com"⟩).2.findById
        (RepoState.init.create ⟨"Alice", "alice@example.com"⟩).1.id =
      some (RepoState.init.create ⟨"Alice", "alice@example.com"⟩).1 ∧
    (((RepoState.mk [⟨1, "a", "a@x"⟩] 2).delete 1).2.delete 1).2 =
      ((RepoState.mk [⟨1, "a", "a@x"⟩] 2).delete 1).2 :=
  ⟨rfl, rfl⟩

/-- C6 amended: the repository does satisfy round-trip and idempotence
properties.  In any state in which no stored user already carries
`nextId` (in particular in every reachable state), `findById` applied
to the id of a just-created user returns exactly that user; and in any
state with pairwise-distinct stored ids, `delete(id)` is idempotent as
a state transformer. -/
theorem c6_amended (s : RepoState) (user : NewUser) (id : Int) :
    ((∀ u ∈ s.users, u.id ≠ s.nextId) →
      (s.create user).2.findById (s.create user).1.id = some (s.create user).1) ∧
    ((s.users.map User.id).Pairwise (· ≠ ·) →
      ((s.delete id).2.delete id).2 = (s.delete id).2) := by
  constructor
  · intro hfresh
    simp only [RepoState.create, RepoState.findById]
    refine find?_append_first _ s.users [] _ ?_ ?_
    · intro v hv; simp [hfresh v hv]
    · simp
  · intro hpw
    cases hf : s.users.find? (fun w => w.id == id) with
    | none => simp [RepoState.delete, hf]
    | some old =>
      obtain ⟨l1, l2, hsplit, hl1, hold⟩ := exists_split_of_find?_eq_some hf
      have hoid : old.id = id := by simpa using hold
      have hidx : s.users.findIdx (fun w => w.id == id) = l1.length := by
        rw [hsplit]; exact findIdx_append_first _ l1 l2 old hl1 hold
      rw [hsplit] at hpw
      rw [List.map_append, List.pairwise_append] at hpw
      obtain ⟨-, hpw2, -⟩ := hpw
      rw [List.map_cons, List.pairwise_cons] at hpw2
      obtain ⟨hold2, -⟩ := hpw2
      have hnone : (l1 ++ l2).find? (fun w => w.id == id) = none := by
        rw [List.find?_eq_none]
        intro x hx
        rcases List.mem_append.mp hx with h1 | h2
        · simpa using hl1 x h1
        · have := hold2 x.id (List.mem_map_of_mem User.id h2)
          simp [hoid ▸ this.symm]
      simp only [RepoState.delete, hf, hidx]
      rw [hsplit, eraseIdx_append_length]
      simp [RepoState.delete, hnone]

/-- Witness for the amended C6: the create/read round-trip and the
double delete, each at a concrete one-user repository. -/
theorem c6_amended_witness :
    ((RepoState.mk [⟨1, "a", "a@x"⟩] 2).create ⟨"Bob", "b@x"⟩).2.findById
        ((RepoState.mk [⟨1, "a", "a@x"⟩] 2).create ⟨"Bob", "b@x"⟩).1.id =
      some ((RepoState.mk [⟨1, "a", "a@x"⟩] 2).create ⟨"Bob", "b@x"⟩).1 ∧
    (((RepoState.mk [⟨1, "a", "a@x"⟩] 2).delete 1).2.delete 1).2 =
      ((RepoState.mk [⟨1, "a", "a@x"⟩] 2).delete 1).2 :=
  ⟨(c6_amended ⟨[⟨1, "a", "a@x"⟩], 2⟩ ⟨"Bob", "b@x"⟩ 1).1 (by decide),
   (c6_amended ⟨[⟨1, "a", "a@x"⟩], 2⟩ ⟨"Bob", "b@x"⟩ 1).2 (by decide)⟩

/-! ## Claims about the `DatabaseConnection` singleton -/

/-- C7 counterexample: the claim says `getInstance` throws exactly
when no instance is stored and no `connectionString` argument is
supplied.  Supplying the empty string with no stored instance also
throws, because `!connectionString` is a JavaScript falsiness test. -/
theorem c7_counterexample :
    DatabaseConnection.getInstance (some "") none =
      (Except.error "Connection string required for first initialization", none) := rfl

/-- C7 amended: `getInstance` throws exactly when no instance is
stored and the `connectionString` argument is absent or the empty
string; in every other case it returns an instance and stores it, and
two successive calls with no intervening `close()` yield the identical
instance and state. -/
theorem c7_amended (cs : Option String) (st : SingletonState) :
    ((DatabaseConnection.getInstance cs st).1 =
        Except.error "Connection string required for first initialization" ↔
      st = none ∧ (cs = none ∨ cs = some "")) ∧
    (¬ (st = none ∧ (cs = none ∨ cs = some "")) →
      ∃ d, DatabaseConnection.getInstance cs st = (Except.ok d, some d)) ∧
    (∀ (d1 : DatabaseConnection) (st1 : SingletonState) (cs2 : Option String)
        (d2 : DatabaseConnection) (st2 : SingletonState),
      DatabaseConnection.getInstance cs st = (Except.ok d1, st1) →
      DatabaseConnection.getInstance cs2 st1 = (Except.ok d2, st2) →
      d2 = d1 ∧ st2 = st1) := by
  cases st with
  | some inst =>
    refine ⟨by simp [DatabaseConnection.getInstance], fun _ => ⟨inst, rfl⟩, ?_⟩
    intro d1 st1 cs2 d2 st2 h1 h2
    simp only [DatabaseConnection.getInstance] at h1
    obtain ⟨hd1, hst1⟩ := Prod.mk.injEq .. ▸ h1
    rw [← hst1] at h2
    simp only [DatabaseConnection.getInstance] at h2
    obtain ⟨hd2, hst2⟩ := Prod.mk.injEq .. ▸ h2
    have e1 : inst = d1 := by injection hd1
    have e2 : inst = d2 := by injection hd2
    exact ⟨by rw [← e2]; exact e1, by rw [← hst2]; exact hst1⟩
  | none =>
    cases cs with
    | none =>
      refine ⟨by simp [DatabaseConnection.getInstance], ?_, ?_⟩
      · intro h; exact absurd ⟨rfl, Or.inl rfl⟩ h
      · intro d1 st1 cs2 d2 st2 h1 h2
        simp [DatabaseConnection.getInstance] at h1
    | some c =>
      by_cases hc : c = ""
      · subst hc
        refine ⟨by simp [DatabaseConnection.getInstance], ?_, ?_⟩
        · intro h; exact absurd ⟨rfl, Or.inr rfl⟩ h
        · intro d1 st1 cs2 d2 st2 h1 h2
          simp [DatabaseConnection.getInstance] at h1
      · refine ⟨by simp [DatabaseConnection.getInstance, hc], fun _ => ⟨⟨c⟩, ?_⟩, ?_⟩
        · simp [DatabaseConnection.getInstance, hc]
        · intro d1 st1 cs2 d2 st2 h1 h2
          simp only [DatabaseConnection.getInstance, if_neg hc] at h1
          obtain ⟨hd1, hst1⟩ := Prod.mk.injEq .. ▸ h1
          rw [← hst1] at h2
          simp only [DatabaseConnection.getInstance] at h2
          obtain ⟨hd2, hst2⟩ := Prod.mk.injEq .. ▸ h2
          have e1 : (⟨c⟩ : DatabaseConnection) = d1 := by injection hd1
          have e2 : (⟨c⟩ : DatabaseConnection) = d2 := by injection hd2
          exact ⟨by rw [← e2]; exact e1, by rw [← hst2]; exact hst1⟩

/-- Witness for the amended C7: with no stored instance and no
argument, `getInstance` throws the initialization error. -/
theorem c7_amended_witness :
    (DatabaseConnection.getInstance none none).1 =
      Except.error "Connection string required for first initialization" :=
  (c7_amended none none).1.mpr ⟨rfl, Or.inl rfl⟩

/-! ## Claim about `validateUserInput` -/

/-- C8: `validateUserInput(input)` returns `true` if and only if the
input is a non-null object whose `name` field is a non-empty string,
whose `email` field is a string containing `'@'`, and whose `age`
field is a number strictly between 0 and 150. -/
theorem c8_validate_iff (input : JSValue) :
    validateUserInput input = true ↔ ValidUserInput input := by
  cases input with
  | vObj fields =>
    constructor
    · intro h
      unfold validateUserInput at h
      rw [if_neg (by simp [jsTypeof, JSValue.isNull])] at h
      rw [Bool.and_eq_true, Bool.and_eq_true] at h
      obtain ⟨⟨h1, h2⟩, h3⟩ := h
      refine ⟨⟨fields, rfl⟩, ?_, ?_, ?_⟩
      · rcases hv : (JSValue.vObj fields).getField "name" with _ | _ | b | n | s | fs <;>
          rw [hv] at h1 <;> simp at h1
        exact ⟨s, rfl, h1⟩
      · rcases hv : (JSValue.vObj fields).getField "email" with _ | _ | b | n | s | fs <;>
          rw [hv] at h2 <;> simp at h2
        exact ⟨s, rfl, h2⟩
      · rcases hv : (JSValue.vObj fields).getField "age" with _ | _ | b | n | s | fs <;>
          rw [hv] at h3 <;> simp at h3
        exact ⟨n, rfl, h3.1, h3.2⟩
    · rintro ⟨-, ⟨s1, hn, hn2⟩, ⟨s2, he, he2⟩, ⟨n, ha, ha2, ha3⟩⟩
      unfold validateUserInput
      rw [if_neg (by simp [jsTypeof, JSValue.isNull])]
      rw [Bool.and_eq_true, Bool.and_eq_true]
      refine ⟨⟨?_, ?_⟩, ?_⟩
      · rw [hn]; simpa using hn2
      · rw [he]; simpa using he2
      · rw [ha]; simp [ha2, ha3]
  | vNull =>
    refine iff_of_false (fun h => ?_) (fun h => ?_)
    · rw [show validateUserInput JSValue.vNull = false from rfl] at h; cases h
    · obtain ⟨⟨fs, hfs⟩, -⟩ := h; cases hfs
  | vUndefined =>
    refine iff_of_false (fun h => ?_) (fun h => ?_)
    · rw [show validateUserInput JSValue.vUndefined = false from rfl] at h; cases h
    · obtain ⟨⟨fs, hfs⟩, -⟩ := h; cases hfs
  | vBool b =>
    refine iff_of_false (fun h => ?_) (fun h => ?_)
    · rw [show validateUserInput (JSValue.vBool b) = false from rfl] at h; cases h
    · obtain ⟨⟨fs, hfs⟩, -⟩ := h; cases hfs
  | vNum n =>
    refine iff_of_false (fun h => ?_) (fun h => ?_)
    · rw [show validateUserInput (JSValue.vNum n) = false from rfl] at h; cases h
    · obtain ⟨⟨fs, hfs⟩, -⟩ := h; cases hfs
  | vStr s =>
    refine iff_of_false (fun h => ?_) (fun h => ?_)
    · rw [show validateUserInput (JSValue.vStr s) = false from rfl] at h; cases h
    · obtain ⟨⟨fs, hfs⟩, -⟩ := h; cases hfs

/-- Witness for C8: a concrete valid input is accepted. -/
theorem c8_validate_witness :
    validateUserInput (JSValue.vObj
      [("name", JSValue.vStr "Al"), ("email", JSValue.vStr "a@b"),
        ("age", JSValue.vNum 30)]) = true :=
  (c8_validate_iff _).mpr
    ⟨⟨_, rfl⟩, ⟨"Al", rfl, by decide⟩, ⟨"a@b", rfl, by decide⟩, ⟨30, rfl, by decide, by decide⟩⟩

end TSBootcamp
